import Mathlib

/-!
Verification of the map decode/composite/extract pipeline of the
pokemon-database-exporter repository, together with the tile-image HTTP
endpoint of pokemon-phaser/server.js and the batch export driver export.js.

The core pipeline (BitplaneTileDecoder, MetatileDecoder, MapGridDecoder,
Compositor, ExtractionPipeline) is implemented in export_map.py, which is not
part of the source snapshot; only its documentation (MAPLOGIC.md) and callers
are.  Those components are therefore modelled from the spec, as marked on each
definition.  server.js and export.js are embedded from their source.
-/

/-- Error taxonomy of the pipeline.  Modelled from the spec: section 7 lists
MalformedAsset, DimensionMismatch, MissingBlock / MissingTile (with the
identity of the offending asset and cell/slot), and MissingDescriptor. -/
inductive ExportError where
  | MalformedAsset : ExportError
  | DimensionMismatch : ExportError
  | MissingBlock (mapName : String) (bx bY : Nat) : ExportError
  | MissingTile (blockIndex : Nat) (tr tc : Nat) : ExportError
  | MissingDescriptor (name : String) : ExportError
deriving DecidableEq, Repr

/-- A Tile is an 8x8 matrix of 2-bit pixel values, stored as rows of pixels. -/
abbrev Tile : Type := List (List Nat)

/-- Modelled from the spec: `bit(X, n)` extracts bit `n` of a byte counting
from the most-significant bit as position 0, so bit `c` is
`(X >>> (7-c)) &&& 1`, written arithmetically. -/
def tileBit (x c : Nat) : Nat := x / 2 ^ (7 - c) % 2

/-- Modelled from the spec: the pixel value at column `c` of a row with bytes
`B0`, `B1` is `(bit(B0,c) <<< 1) ||| bit(B1,c)`; since the two operands are
disjoint single bits the bitwise-or is written as `2 * _ + _`. -/
def decodeRow (b0 b1 : Nat) : List Nat :=
  (List.range 8).map fun c => 2 * tileBit b0 c + tileBit b1 c

/-- Modelled from the spec: tile number `i` of a sheet reads, for each row
`r`, the byte pair `B0 = bytes[16*i + r*2]`, `B1 = bytes[16*i + r*2 + 1]` and
decodes the row from the two bit-planes. -/
def tileAt (bytes : List Nat) (i : Nat) : Tile :=
  (List.range 8).map fun r =>
    decodeRow (bytes.getD (16 * i + 2 * r) 0) (bytes.getD (16 * i + 2 * r + 1) 0)

/-- Modelled from the spec: BitplaneTileDecoder fails with MalformedAsset when
the input length is not a multiple of 16, and otherwise decodes length/16
tiles in order. -/
def bitplaneTileDecoder (bytes : List Nat) : Except ExportError (List Tile) :=
  if bytes.length % 16 = 0 then
    .ok ((List.range (bytes.length / 16)).map (tileAt bytes))
  else
    .error .MalformedAsset

/-- A Block is an ordered sequence of 16 tile indices, logically a 4x4 grid
in row-major order. -/
structure Block where
  tileIndices : List Nat
deriving DecidableEq, Repr

/-- Modelled from the spec: blocks expose `tileIndexAt(row, col)` for
row, col in [0,4), reading the 16 bytes in row-major order. -/
def Block.tileIndexAt (b : Block) (r c : Nat) : Nat :=
  b.tileIndices.getD (4 * r + c) 0

def defaultBlock : Block := ⟨List.replicate 16 0⟩

/-- Modelled from the spec: block number `i` of a blockset is the `i`-th
16-byte group, kept in row-major order. -/
def blockAt (bytes : List Nat) (i : Nat) : Block :=
  ⟨(List.range 16).map fun j => bytes.getD (16 * i + j) 0⟩

/-- Modelled from the spec: MetatileDecoder fails with MalformedAsset when the
input length is not a multiple of 16, and otherwise yields one block per
16-byte group. -/
def metatileDecoder (bytes : List Nat) : Except ExportError (List Block) :=
  if bytes.length % 16 = 0 then
    .ok ((List.range (bytes.length / 16)).map (blockAt bytes))
  else
    .error .MalformedAsset

/-- Modelled from the spec: MapGridDecoder checks `len(bytes) = width*height`
(else DimensionMismatch) and yields the row-major grid with
cell `(col,row) = bytes[row*width + col]`. -/
def mapGridDecoder (bytes : List Nat) (width height : Nat) :
    Except ExportError (List (List Nat)) :=
  if bytes.length = width * height then
    .ok ((List.range height).map fun r =>
      (List.range width).map fun c => bytes.getD (r * width + c) 0)
  else
    .error .DimensionMismatch

/-- Modelled from the spec: inverse bitplane packing of one row, high
bit-plane byte.  Bit `7 - c` of the byte is the high bit of pixel `c`. -/
def encodeRowHigh (ps : List Nat) : Nat :=
  (List.range 8).foldr (fun c acc => ps.getD c 0 / 2 % 2 * 2 ^ (7 - c) + acc) 0

/-- Modelled from the spec: inverse bitplane packing of one row, low
bit-plane byte.  Bit `7 - c` of the byte is the low bit of pixel `c`. -/
def encodeRowLow (ps : List Nat) : Nat :=
  (List.range 8).foldr (fun c acc => ps.getD c 0 % 2 * 2 ^ (7 - c) + acc) 0

/-- Modelled from the spec: re-encode an 8x8 pixel matrix into the 16-byte
2bpp form, two bit-plane bytes per row. -/
def encodeTile (t : Tile) : List Nat :=
  (List.range 8).flatMap fun r => [encodeRowHigh (t.getD r []), encodeRowLow (t.getD r [])]

/-- Decode a single 16-byte tile (the first tile of a sheet). -/
def decodeTileBytes (bytes : List Nat) : Tile := tileAt bytes 0

/-- A Map: name, width and height in block units, and the decoded row-major
grid of block indices (height rows of width cells). -/
structure GameMap where
  name : String
  width : Nat
  height : Nat
  grid : List (List Nat)
deriving DecidableEq, Repr

/-- A Blockset: name plus the ordered sequence of blocks. -/
structure Blockset where
  name : String
  blocks : List Block
deriving DecidableEq, Repr

/-- A Tileset: name plus the ordered sequence of tiles. -/
structure Tileset where
  name : String
  tiles : List Tile
deriving DecidableEq, Repr

/-- All block cells `(bx, bY)` of a map in row-major scan order. -/
def allCells (m : GameMap) : List (Nat × Nat) :=
  (List.range m.height).flatMap fun r => (List.range m.width).map fun c => (c, r)

/-- The block index stored at cell `(bx, bY)` of a map's grid. -/
def blockIndexAtCell (m : GameMap) (bx bY : Nat) : Nat :=
  (m.grid.getD bY []).getD bx 0

/-- Modelled from the spec: the first cell, in row-major scan order, whose
block index has no entry in the blockset. -/
def findBadBlock (m : GameMap) (bs : Blockset) : Option (Nat × Nat) :=
  (allCells m).find? fun p => bs.blocks.length ≤ blockIndexAtCell m p.1 p.2

/-- All `(tr, tc)` tile slots of a block in row-major order. -/
def allSlots : List (Nat × Nat) :=
  (List.range 4).flatMap fun tr => (List.range 4).map fun tc => (tr, tc)

/-- Modelled from the spec: the first (cell, slot) pair, in scan order, whose
tile index has no entry in the tileset. -/
def findBadTile (m : GameMap) (bs : Blockset) (ts : Tileset) :
    Option ((Nat × Nat) × (Nat × Nat)) :=
  ((allCells m).flatMap fun cell => allSlots.map fun slot => (cell, slot)).find?
    fun p =>
      ts.tiles.length ≤
        (bs.blocks.getD (blockIndexAtCell m p.1.1 p.1.2) defaultBlock).tileIndexAt p.2.1 p.2.2

/-- Modelled from the spec: the pixel of the composited raster at absolute
coordinates `(x, y)`: block cell `(x/32, y/32)`, tile slot
`((y%32)/8, (x%32)/8)`, tile pixel `(y%8, x%8)`. -/
def compositePixel (m : GameMap) (bs : Blockset) (ts : Tileset) (x y : Nat) : Nat :=
  let blockIndex := blockIndexAtCell m (x / 32) (y / 32)
  let block := bs.blocks.getD blockIndex defaultBlock
  let tileIndex := block.tileIndexAt (y % 32 / 8) (x % 32 / 8)
  let tile := ts.tiles.getD tileIndex []
  (tile.getD (y % 8) []).getD (x % 8) 0

/-- Modelled from the spec: the full raster, `height*32` rows of `width*32`
pixels, each block covering a 32x32 area made of 4x4 tiles of 8x8 pixels. -/
def rasterOf (m : GameMap) (bs : Blockset) (ts : Tileset) : List (List Nat) :=
  (List.range (m.height * 32)).map fun y =>
    (List.range (m.width * 32)).map fun x => compositePixel m bs ts x y

/-- Modelled from the spec: `composite(map, blockset, tileset)` fails with
MissingBlock (map name + cell coordinates) on the first out-of-range block
index, then with MissingTile (block + slot) on the first out-of-range tile
index, and otherwise yields the full raster. -/
def composite (m : GameMap) (bs : Blockset) (ts : Tileset) :
    Except ExportError (List (List Nat)) :=
  match findBadBlock m bs with
  | some (bx, bY) => .error (.MissingBlock m.name bx bY)
  | none =>
    match findBadTile m bs ts with
    | some ((bx, bY), (tr, tc)) =>
      .error (.MissingTile (blockIndexAtCell m bx bY) tr tc)
    | none => .ok (rasterOf m bs ts)

/-- One persisted record: the map's name together with its raster. -/
structure MapRecord where
  mapName : String
  raster : List (List Nat)
deriving DecidableEq, Repr

/-- Modelled from the spec: the pipeline step for one map writes the map's
record set to the store only when composition succeeds; on any composite
error the map is skipped and the store is left unchanged. -/
def processMap (m : GameMap) (bs : Blockset) (ts : Tileset)
    (store : List MapRecord) : List MapRecord × Option ExportError :=
  match composite m bs ts with
  | .error e => (store, some e)
  | .ok raster => (store ++ [⟨m.name, raster⟩], none)

/-- Modelled from the spec: a single explicit on-demand render request is a
pure read of its three inputs; it threads any ambient store state through
unchanged. -/
def renderRequest {σ : Type} (m : GameMap) (bs : Blockset) (ts : Tileset)
    (st : σ) : Except ExportError (List (List Nat)) × σ :=
  (composite m bs ts, st)

/-- Modelled from the spec: the explicit decode cache handed to the
ExtractionPipeline.  Each cache maps an asset name to the (possibly failed)
decode result; decode failures are cached too, so a shared failure is
surfaced once and never re-attempted.  The `tsDecodes` / `bsDecodes` lists
record, in order, every invocation of the corresponding decoder. -/
structure PipelineState where
  tsCache : List (String × Except ExportError (List Tile))
  bsCache : List (String × Except ExportError (List Block))
  tsDecodes : List String
  bsDecodes : List String

def emptyPipelineState : PipelineState := ⟨[], [], [], []⟩

/-- Look a name up in a decode cache. -/
def lookupCache {α : Type} (cache : List (String × α)) (name : String) :
    Option α :=
  (cache.find? fun p => p.1 == name).map Prod.snd

/-- Modelled from the spec: `resolveTileset(name)` returns the cached decode
result when present; otherwise it invokes BitplaneTileDecoder once on the
registry's bytes for that name and caches the result. -/
def resolveTileset (registry : String → List Nat) (st : PipelineState)
    (name : String) : Except ExportError (List Tile) × PipelineState :=
  match lookupCache st.tsCache name with
  | some r => (r, st)
  | none =>
    let r := bitplaneTileDecoder (registry name)
    (r, { st with tsCache := (name, r) :: st.tsCache,
                  tsDecodes := st.tsDecodes ++ [name] })

/-- Modelled from the spec: `resolveBlockset(name)` with the same
decode-once-and-cache discipline, invoking MetatileDecoder. -/
def resolveBlockset (registry : String → List Nat) (st : PipelineState)
    (name : String) : Except ExportError (List Block) × PipelineState :=
  match lookupCache st.bsCache name with
  | some r => (r, st)
  | none =>
    let r := metatileDecoder (registry name)
    (r, { st with bsCache := (name, r) :: st.bsCache,
                  bsDecodes := st.bsDecodes ++ [name] })

/-- Modelled from the spec: the pipeline walks the map descriptors in order,
resolving each map's assigned tileset and blockset names through the cache. -/
def runResolves (tsRegistry bsRegistry : String → List Nat) :
    PipelineState → List (String × String) → PipelineState
  | st, [] => st
  | st, d :: rest =>
    let st1 := (resolveTileset tsRegistry st d.1).2
    let st2 := (resolveBlockset bsRegistry st1 d.2).2
    runResolves tsRegistry bsRegistry st2 rest

/-- Modelled from the spec: a full pipeline run starts from a fresh cache. -/
def runPipelineResolves (tsRegistry bsRegistry : String → List Nat)
    (descs : List (String × String)) : PipelineState :=
  runResolves tsRegistry bsRegistry emptyPipelineState descs

/-- HTTP responses produced by the tile-image endpoint of
pokemon-phaser/server.js. -/
inductive HttpResponse where
  | badRequest (msg : String)
  | serverError (msg : String)
  | fileResponse (p : String)
  | notFound (msg : String)
deriving DecidableEq, Repr

/-- The image file name `tile_<k>.png` the endpoint computes for an adjusted
(0-indexed) tile id. -/
def tileImageName (k : Int) : String := "tile_" ++ toString k ++ ".png"

/-- The handler of `app.get("/api/tile-image/:id")` in server.js.
`parsed` is the result of JavaScript `parseInt` on the id parameter (`none`
when `isNaN`), `dbResult` the outcome of the `SELECT image_path FROM
tile_images WHERE id = ?` query, and `fexists` the `fs.existsSync` check,
applied to file names relative to the `tile_images` directory. -/
def tileImageHandler (parsed : Option Int)
    (dbResult : Except String (Option String)) (fexists : String → Bool) :
    HttpResponse :=
  match parsed with
  | none => .badRequest "Invalid tile ID"
  | some n =>
    match dbResult with
    | .error _ => .serverError "Database error"
    | .ok none =>
      let imagePath := tileImageName (n - 1)
      if fexists imagePath then .fileResponse imagePath
      else if fexists (tileImageName 0) then .fileResponse (tileImageName 0)
      else .notFound "Tile image not found"
    | .ok (some dbImagePath) =>
      if fexists dbImagePath then .fileResponse dbImagePath
      else
        let calculatedPath := tileImageName (n - 1)
        if fexists calculatedPath then .fileResponse calculatedPath
        else if fexists (tileImageName 0) then .fileResponse (tileImageName 0)
        else .notFound "Tile image not found"

/-- `runCommand` of export.js: `execSync` either returns the command's output
or throws; the function catches the error, logs it, and returns `false`,
returning `true` on success. -/
def runCommand (execResult : Except String String) : Bool :=
  match execResult with
  | .ok _ => true
  | .error _ => false

/-- The render command string built for one map name in export.js. -/
def renderCmdFor (m : String) : String :=
  "python3 export_map.py --render " ++ m ++ " --output exported_maps/"
    ++ m.toLower ++ ".png"

/-- The render loop of `runExports` in export.js: for each map in the list it
runs the render command through `runCommand` and increments `renderedCount`
only on success.  The first component records every map attempted, in order;
the second is the final `renderedCount`.  `exec` gives each command's
`execSync` outcome. -/
def renderLoop (maps : List String) (exec : String → Except String String) :
    List String × Nat :=
  maps.foldl
    (fun acc m =>
      (acc.1 ++ [m],
       if runCommand (exec (renderCmdFor m)) then acc.2 + 1 else acc.2))
    ([], 0)

/-- The 90 bytes of Pallet Town's blockfile, as listed in MAPLOGIC.md. -/
def palletTownBlk : List Nat :=
  [0x52, 0x4F, 0x52, 0x52, 0x4F, 0x0B, 0x50, 0x52, 0x52, 0x50, 0x4E, 0x01,
   0x38, 0x39, 0x01, 0x01, 0x38, 0x39, 0x01, 0x4D, 0x4E, 0x08, 0x3C, 0x3D,
   0x01, 0x08, 0x3C, 0x3D, 0x01, 0x4D, 0x4E, 0x01, 0x01, 0x01, 0x01, 0x01,
   0x01, 0x01, 0x01, 0x4D, 0x4E, 0x01, 0x77, 0x56, 0x01, 0x0C, 0x0D, 0x0E,
   0x01, 0x4D, 0x4E, 0x01, 0x74, 0x74, 0x01, 0x10, 0x3A, 0x00, 0x01, 0x4D,
   0x4E, 0x01, 0x01, 0x01, 0x01, 0x77, 0x56, 0x77, 0x31, 0x4D, 0x4E, 0x0A,
   0x1D, 0x1E, 0x31, 0x74, 0x74, 0x0A, 0x31, 0x4D, 0x50, 0x0A, 0x65, 0x64,
   0x61, 0x61, 0x61, 0x61, 0x61, 0x4F]

/-- A concrete all-black test tile. -/
def testTile : Tile := List.replicate 8 (List.replicate 8 3)

/-- A concrete one-cell test map. -/
def testMap1 : GameMap := ⟨"TEST_MAP", 1, 1, [[0]]⟩

/-- A concrete one-block test blockset. -/
def testBlockset1 : Blockset := ⟨"overworld", [defaultBlock]⟩

/-- A concrete one-tile test tileset. -/
def testTileset1 : Tileset := ⟨"overworld", [testTile]⟩

/-- A concrete map whose cell (1,0) holds block index 5, out of range for
a one-block blockset. -/
def testMapBad : GameMap := ⟨"BAD_MAP", 2, 1, [[0, 5]]⟩

/-! ## Helper lemmas -/

theorem getD_map_range {α : Type} (n k : Nat) (f : Nat → α) (d : α) (h : k < n) :
    ((List.range n).map f).getD k d = f k := by
  rw [List.getD_eq_getElem?_getD]
  simp [List.getElem?_map, List.getElem?_range h]

theorem cons_of_length_succ {α : Type} (l : List α) (n : Nat)
    (h : l.length = n + 1) : ∃ a t, l = a :: t ∧ t.length = n := by
  cases l with
  | nil => simp at h
  | cons a t => exact ⟨a, t, rfl, by simpa using h⟩

theorem decodeRow_eq (b0 b1 : Nat) : decodeRow b0 b1 =
    [2 * (b0 / 128 % 2) + b1 / 128 % 2, 2 * (b0 / 64 % 2) + b1 / 64 % 2,
     2 * (b0 / 32 % 2) + b1 / 32 % 2, 2 * (b0 / 16 % 2) + b1 / 16 % 2,
     2 * (b0 / 8 % 2) + b1 / 8 % 2, 2 * (b0 / 4 % 2) + b1 / 4 % 2,
     2 * (b0 / 2 % 2) + b1 / 2 % 2, 2 * (b0 / 1 % 2) + b1 / 1 % 2] := rfl

theorem encodeRowHigh_eq (p0 p1 p2 p3 p4 p5 p6 p7 : Nat) :
    encodeRowHigh [p0, p1, p2, p3, p4, p5, p6, p7] =
      p0 / 2 % 2 * 128 + (p1 / 2 % 2 * 64 + (p2 / 2 % 2 * 32 +
        (p3 / 2 % 2 * 16 + (p4 / 2 % 2 * 8 + (p5 / 2 % 2 * 4 +
          (p6 / 2 % 2 * 2 + (p7 / 2 % 2 * 1 + 0))))))) := rfl

theorem encodeRowLow_eq (p0 p1 p2 p3 p4 p5 p6 p7 : Nat) :
    encodeRowLow [p0, p1, p2, p3, p4, p5, p6, p7] =
      p0 % 2 * 128 + (p1 % 2 * 64 + (p2 % 2 * 32 + (p3 % 2 * 16 +
        (p4 % 2 * 8 + (p5 % 2 * 4 + (p6 % 2 * 2 + (p7 % 2 * 1 + 0))))))) := rfl

theorem extractBits (x0 x1 x2 x3 x4 x5 x6 x7 : Nat)
    (h0 : x0 ≤ 1) (h1 : x1 ≤ 1) (h2 : x2 ≤ 1) (h3 : x3 ≤ 1)
    (h4 : x4 ≤ 1) (h5 : x5 ≤ 1) (h6 : x6 ≤ 1) (h7 : x7 ≤ 1) :
    (x0 * 128 + (x1 * 64 + (x2 * 32 + (x3 * 16 + (x4 * 8 + (x5 * 4 +
      (x6 * 2 + (x7 * 1 + 0)))))))) / 128 % 2 = x0 ∧
    (x0 * 128 + (x1 * 64 + (x2 * 32 + (x3 * 16 + (x4 * 8 + (x5 * 4 +
      (x6 * 2 + (x7 * 1 + 0)))))))) / 64 % 2 = x1 ∧
    (x0 * 128 + (x1 * 64 + (x2 * 32 + (x3 * 16 + (x4 * 8 + (x5 * 4 +
      (x6 * 2 + (x7 * 1 + 0)))))))) / 32 % 2 = x2 ∧
    (x0 * 128 + (x1 * 64 + (x2 * 32 + (x3 * 16 + (x4 * 8 + (x5 * 4 +
      (x6 * 2 + (x7 * 1 + 0)))))))) / 16 % 2 = x3 ∧
    (x0 * 128 + (x1 * 64 + (x2 * 32 + (x3 * 16 + (x4 * 8 + (x5 * 4 +
      (x6 * 2 + (x7 * 1 + 0)))))))) / 8 % 2 = x4 ∧
    (x0 * 128 + (x1 * 64 + (x2 * 32 + (x3 * 16 + (x4 * 8 + (x5 * 4 +
      (x6 * 2 + (x7 * 1 + 0)))))))) / 4 % 2 = x5 ∧
    (x0 * 128 + (x1 * 64 + (x2 * 32 + (x3 * 16 + (x4 * 8 + (x5 * 4 +
      (x6 * 2 + (x7 * 1 + 0)))))))) / 2 % 2 = x6 ∧
    (x0 * 128 + (x1 * 64 + (x2 * 32 + (x3 * 16 + (x4 * 8 + (x5 * 4 +
      (x6 * 2 + (x7 * 1 + 0)))))))) / 1 % 2 = x7 := by
  omega

theorem decodeRow_encodeRow (p0 p1 p2 p3 p4 p5 p6 p7 : Nat)
    (h0 : p0 < 4) (h1 : p1 < 4) (h2 : p2 < 4) (h3 : p3 < 4) (h4 : p4 < 4)
    (h5 : p5 < 4) (h6 : p6 < 4) (h7 : p7 < 4) :
    decodeRow (encodeRowHigh [p0, p1, p2, p3, p4, p5, p6, p7])
        (encodeRowLow [p0, p1, p2, p3, p4, p5, p6, p7]) =
      [p0, p1, p2, p3, p4, p5, p6, p7] := by
  rw [decodeRow_eq, encodeRowHigh_eq, encodeRowLow_eq]
  obtain ⟨eH0, eH1, eH2, eH3, eH4, eH5, eH6, eH7⟩ :=
    extractBits (p0 / 2 % 2) (p1 / 2 % 2) (p2 / 2 % 2) (p3 / 2 % 2)
      (p4 / 2 % 2) (p5 / 2 % 2) (p6 / 2 % 2) (p7 / 2 % 2)
      (by omega) (by omega) (by omega) (by omega)
      (by omega) (by omega) (by omega) (by omega)
  obtain ⟨eL0, eL1, eL2, eL3, eL4, eL5, eL6, eL7⟩ :=
    extractBits (p0 % 2) (p1 % 2) (p2 % 2) (p3 % 2)
      (p4 % 2) (p5 % 2) (p6 % 2) (p7 % 2)
      (by omega) (by omega) (by omega) (by omega)
      (by omega) (by omega) (by omega) (by omega)
  simp only [List.cons.injEq, and_true]
  rw [eH0, eH1, eH2, eH3, eH4, eH5, eH6, eH7,
      eL0, eL1, eL2, eL3, eL4, eL5, eL6, eL7]
  clear eH0 eH1 eH2 eH3 eH4 eH5 eH6 eH7 eL0 eL1 eL2 eL3 eL4 eL5 eL6 eL7
  omega

theorem reconstructByte (b : Nat) (hb : b < 256) :
    b / 128 % 2 * 128 + (b / 64 % 2 * 64 + (b / 32 % 2 * 32 +
      (b / 16 % 2 * 16 + (b / 8 % 2 * 8 + (b / 4 % 2 * 4 +
        (b / 2 % 2 * 2 + (b / 1 % 2 * 1 + 0))))))) = b := by
  omega

theorem encodeRowHigh_decodeRow (b0 b1 : Nat) (hb0 : b0 < 256) :
    encodeRowHigh (decodeRow b0 b1) = b0 := by
  rw [decodeRow_eq, encodeRowHigh_eq]
  have c0 : (2 * (b0 / 128 % 2) + b1 / 128 % 2) / 2 % 2 = b0 / 128 % 2 := by omega
  have c1 : (2 * (b0 / 64 % 2) + b1 / 64 % 2) / 2 % 2 = b0 / 64 % 2 := by omega
  have c2 : (2 * (b0 / 32 % 2) + b1 / 32 % 2) / 2 % 2 = b0 / 32 % 2 := by omega
  have c3 : (2 * (b0 / 16 % 2) + b1 / 16 % 2) / 2 % 2 = b0 / 16 % 2 := by omega
  have c4 : (2 * (b0 / 8 % 2) + b1 / 8 % 2) / 2 % 2 = b0 / 8 % 2 := by omega
  have c5 : (2 * (b0 / 4 % 2) + b1 / 4 % 2) / 2 % 2 = b0 / 4 % 2 := by omega
  have c6 : (2 * (b0 / 2 % 2) + b1 / 2 % 2) / 2 % 2 = b0 / 2 % 2 := by omega
  have c7 : (2 * (b0 / 1 % 2) + b1 / 1 % 2) / 2 % 2 = b0 / 1 % 2 := by omega
  rw [c0, c1, c2, c3, c4, c5, c6, c7]
  exact reconstructByte b0 hb0

theorem encodeRowLow_decodeRow (b0 b1 : Nat) (hb1 : b1 < 256) :
    encodeRowLow (decodeRow b0 b1) = b1 := by
  rw [decodeRow_eq, encodeRowLow_eq]
  have c0 : (2 * (b0 / 128 % 2) + b1 / 128 % 2) % 2 = b1 / 128 % 2 := by omega
  have c1 : (2 * (b0 / 64 % 2) + b1 / 64 % 2) % 2 = b1 / 64 % 2 := by omega
  have c2 : (2 * (b0 / 32 % 2) + b1 / 32 % 2) % 2 = b1 / 32 % 2 := by omega
  have c3 : (2 * (b0 / 16 % 2) + b1 / 16 % 2) % 2 = b1 / 16 % 2 := by omega
  have c4 : (2 * (b0 / 8 % 2) + b1 / 8 % 2) % 2 = b1 / 8 % 2 := by omega
  have c5 : (2 * (b0 / 4 % 2) + b1 / 4 % 2) % 2 = b1 / 4 % 2 := by omega
  have c6 : (2 * (b0 / 2 % 2) + b1 / 2 % 2) % 2 = b1 / 2 % 2 := by omega
  have c7 : (2 * (b0 / 1 % 2) + b1 / 1 % 2) % 2 = b1 / 1 % 2 := by omega
  rw [c0, c1, c2, c3, c4, c5, c6, c7]
  exact reconstructByte b1 hb1

theorem decodeTileBytes_eq (b0 b1 b2 b3 b4 b5 b6 b7 b8 b9 b10 b11 b12 b13 b14 b15 : Nat) :
    decodeTileBytes [b0, b1, b2, b3, b4, b5, b6, b7, b8, b9, b10, b11, b12, b13, b14, b15] =
      [decodeRow b0 b1, decodeRow b2 b3, decodeRow b4 b5, decodeRow b6 b7,
       decodeRow b8 b9, decodeRow b10 b11, decodeRow b12 b13, decodeRow b14 b15] := rfl

theorem encodeTile_eq (r0 r1 r2 r3 r4 r5 r6 r7 : List Nat) :
    encodeTile [r0, r1, r2, r3, r4, r5, r6, r7] =
      [encodeRowHigh r0, encodeRowLow r0, encodeRowHigh r1, encodeRowLow r1,
       encodeRowHigh r2, encodeRowLow r2, encodeRowHigh r3, encodeRowLow r3,
       encodeRowHigh r4, encodeRowLow r4, encodeRowHigh r5, encodeRowLow r5,
       encodeRowHigh r6, encodeRowLow r6, encodeRowHigh r7, encodeRowLow r7] := rfl

theorem decodeRow_encode_of_valid (row : List Nat) (h8 : row.length = 8)
    (hlt : ∀ p ∈ row, p < 4) :
    decodeRow (encodeRowHigh row) (encodeRowLow row) = row := by
  obtain ⟨p0, t0, rfl, ht0⟩ := cons_of_length_succ row 7 h8
  obtain ⟨p1, t1, rfl, ht1⟩ := cons_of_length_succ t0 6 ht0
  obtain ⟨p2, t2, rfl, ht2⟩ := cons_of_length_succ t1 5 ht1
  obtain ⟨p3, t3, rfl, ht3⟩ := cons_of_length_succ t2 4 ht2
  obtain ⟨p4, t4, rfl, ht4⟩ := cons_of_length_succ t3 3 ht3
  obtain ⟨p5, t5, rfl, ht5⟩ := cons_of_length_succ t4 2 ht4
  obtain ⟨p6, t6, rfl, ht6⟩ := cons_of_length_succ t5 1 ht5
  obtain ⟨p7, t7, rfl, ht7⟩ := cons_of_length_succ t6 0 ht6
  rw [List.length_eq_zero.mp ht7]
  exact decodeRow_encodeRow p0 p1 p2 p3 p4 p5 p6 p7
    (hlt p0 (by simp)) (hlt p1 (by simp)) (hlt p2 (by simp)) (hlt p3 (by simp))
    (hlt p4 (by simp)) (hlt p5 (by simp)) (hlt p6 (by simp)) (hlt p7 (by simp))

/-! ## Claim theorems -/

/-- C1: for every 16-byte tile and every row r in [0,8), with B0 = bytes[r*2]
and B1 = bytes[r*2+1], the decoded pixel value at column c (bit positions
counted from the most significant bit as position 0) equals
(bit(B0,c) <<< 1) ||| bit(B1,c); in particular, for the row bytes B0 = 0x00
and B1 = 0xFF, all 8 decoded pixel values of that row equal 1. -/
theorem C1_bitplane_pixel_formula :
    (∀ (bytes : List Nat) (ts : List Tile) (r c : Nat),
        bytes.length = 16 → bitplaneTileDecoder bytes = .ok ts →
        r < 8 → c < 8 →
        ((ts.getD 0 []).getD r []).getD c 0 =
          2 * tileBit (bytes.getD (2 * r) 0) c + tileBit (bytes.getD (2 * r + 1) 0) c)
    ∧ decodeRow 0 255 = [1, 1, 1, 1, 1, 1, 1, 1] := by
  constructor
  · intro bytes ts r c h16 hok hr hc
    unfold bitplaneTileDecoder at hok
    rw [if_pos (by rw [h16])] at hok
    rw [h16] at hok
    injection hok with hok
    subst hok
    have h1 : ((List.range (16 / 16)).map (tileAt bytes)).getD 0 [] = tileAt bytes 0 :=
      getD_map_range _ _ _ _ (by norm_num)
    rw [h1]
    unfold tileAt
    rw [getD_map_range _ _ _ _ hr]
    unfold decodeRow
    rw [getD_map_range _ _ _ _ hc]
    norm_num
  · rfl

/-- Witness for C1 at the concrete 16-byte tile whose first row bytes are
0x00, 0xFF. -/
theorem C1_witness :
    ((((List.range 1).map (tileAt (0 :: 255 :: List.replicate 14 0))).getD 0 []).getD
          0 []).getD 3 0 =
      2 * tileBit ((0 :: 255 :: List.replicate 14 0).getD (2 * 0) 0) 3 +
        tileBit ((0 :: 255 :: List.replicate 14 0).getD (2 * 0 + 1) 0) 3
    ∧ decodeRow 0 255 = [1, 1, 1, 1, 1, 1, 1, 1] :=
  ⟨C1_bitplane_pixel_formula.1 (0 :: 255 :: List.replicate 14 0)
      ((List.range 1).map (tileAt (0 :: 255 :: List.replicate 14 0))) 0 3
      (by decide) rfl (by decide) (by decide),
   C1_bitplane_pixel_formula.2⟩

/-- C2: MapGridDecoder fails with DimensionMismatch when the byte count is
not width*height, and otherwise yields a grid of height rows and width
columns with cell (col,row) = bytes[row*width + col], consuming every input
byte. -/
theorem C2_map_grid_decoder :
    (∀ (bytes : List Nat) (w hgt : Nat), bytes.length ≠ w * hgt →
        mapGridDecoder bytes w hgt = .error .DimensionMismatch)
    ∧ (∀ (bytes : List Nat) (w hgt : Nat) (g : List (List Nat)),
        mapGridDecoder bytes w hgt = .ok g →
        g.length = hgt ∧ (∀ row ∈ g, row.length = w) ∧
        (∀ r c, r < hgt → c < w →
          (g.getD r []).getD c 0 = bytes.getD (r * w + c) 0) ∧
        (∀ k, k < bytes.length →
          (g.getD (k / w) []).getD (k % w) 0 = bytes.getD k 0)) := by
  constructor
  · intro bytes w hgt hne
    unfold mapGridDecoder
    rw [if_neg hne]
  · intro bytes w hgt g hok
    unfold mapGridDecoder at hok
    by_cases hlen : bytes.length = w * hgt
    · rw [if_pos hlen] at hok
      injection hok with hok
      subst hok
      have hcell : ∀ r c, r < hgt → c < w →
          ((((List.range hgt).map fun r =>
              (List.range w).map fun c => bytes.getD (r * w + c) 0).getD r []).getD c 0) =
            bytes.getD (r * w + c) 0 := by
        intro r c hr hc
        rw [getD_map_range _ _ _ _ hr, getD_map_range _ _ _ _ hc]
      refine ⟨by simp, ?_, hcell, ?_⟩
      · intro row hrow
        simp only [List.mem_map, List.mem_range] at hrow
        obtain ⟨r, _, rfl⟩ := hrow
        simp
      · intro k hk
        have hw : 0 < w := by
          rcases Nat.eq_zero_or_pos w with h0 | h0
          · rw [hlen, h0] at hk; simp at hk
          · exact h0
        have hdiv : k / w < hgt := by
          rw [Nat.div_lt_iff_lt_mul hw, Nat.mul_comm hgt w, ← hlen]
          exact hk
        have hmod : k % w < w := Nat.mod_lt _ hw
        have := hcell (k / w) (k % w) hdiv hmod
        rwa [Nat.mul_comm (k / w) w, Nat.div_add_mod k w] at this
    · rw [if_neg hlen] at hok
      exact absurd hok (by simp)

/-- Witness for C2: a wrong-sized input fails, and the 90-byte Pallet Town
blockfile with width 10 and height 9 decodes to a 9-row grid of 10-wide
rows. -/
theorem C2_witness :
    mapGridDecoder [0] 10 9 = .error .DimensionMismatch ∧
    ∃ g, mapGridDecoder palletTownBlk 10 9 = .ok g ∧
      g.length = 9 ∧ ∀ row ∈ g, row.length = 10 :=
  ⟨C2_map_grid_decoder.1 [0] 10 9 (by decide),
   _, rfl,
   (C2_map_grid_decoder.2 palletTownBlk 10 9 _ rfl).1,
   (C2_map_grid_decoder.2 palletTownBlk 10 9 _ rfl).2.1⟩

theorem composite_ok_raster (m : GameMap) (bs : Blockset) (ts : Tileset)
    (raster : List (List Nat)) (hok : composite m bs ts = .ok raster) :
    raster = rasterOf m bs ts := by
  unfold composite at hok
  rcases hfb : findBadBlock m bs with _ | ⟨bx, bY⟩
  · rw [hfb] at hok
    rcases hft : findBadTile m bs ts with _ | ⟨⟨bx, bY⟩, tr, tc⟩
    · rw [hft] at hok
      injection hok with hok
      exact hok.symm
    · rw [hft] at hok
      simp at hok
  · rw [hfb] at hok
    simp at hok

/-- C3: a successful composite yields a raster mapWidth*32 pixels wide and
mapHeight*32 tall, in which the 8x8 pixels of the tile selected by
block.tileIndexAt(tr,tc) occupy the rectangle with top-left corner
x = (bx*4+tc)*8, y = (bY*4+tr)*8. -/
theorem C3_composite_geometry (m : GameMap) (bs : Blockset) (ts : Tileset)
    (raster : List (List Nat)) (bx bY tr tc i j : Nat)
    (hok : composite m bs ts = .ok raster)
    (hbx : bx < m.width) (hbY : bY < m.height) (htr : tr < 4) (htc : tc < 4)
    (hi : i < 8) (hj : j < 8) :
    raster.length = m.height * 32 ∧
    (∀ row ∈ raster, row.length = m.width * 32) ∧
    (raster.getD ((bY * 4 + tr) * 8 + i) []).getD ((bx * 4 + tc) * 8 + j) 0 =
      ((ts.tiles.getD
          ((bs.blocks.getD (blockIndexAtCell m bx bY) defaultBlock).tileIndexAt tr tc)
          []).getD i []).getD j 0 := by
  have hr := composite_ok_raster m bs ts raster hok
  subst hr
  refine ⟨by simp [rasterOf], ?_, ?_⟩
  · intro row hrow
    simp only [rasterOf, List.mem_map, List.mem_range] at hrow
    obtain ⟨y, _, rfl⟩ := hrow
    simp
  · unfold rasterOf
    have hy : (bY * 4 + tr) * 8 + i < m.height * 32 := by omega
    have hx : (bx * 4 + tc) * 8 + j < m.width * 32 := by omega
    rw [getD_map_range _ _ _ _ hy, getD_map_range _ _ _ _ hx]
    unfold compositePixel
    have e1 : ((bx * 4 + tc) * 8 + j) / 32 = bx := by omega
    have e2 : ((bY * 4 + tr) * 8 + i) / 32 = bY := by omega
    have e3 : ((bY * 4 + tr) * 8 + i) % 32 / 8 = tr := by omega
    have e4 : ((bx * 4 + tc) * 8 + j) % 32 / 8 = tc := by omega
    have e5 : ((bY * 4 + tr) * 8 + i) % 8 = i := by omega
    have e6 : ((bx * 4 + tc) * 8 + j) % 8 = j := by omega
    rw [e1, e2, e3, e4, e5, e6]

/-- Witness for C3 at a concrete one-cell map, blockset and tileset, at
block slot (tr,tc) = (1,2) and tile pixel (i,j) = (3,4). -/
theorem C3_witness :
    ((rasterOf testMap1 testBlockset1 testTileset1).getD 11 []).getD 20 0 =
      ((testTileset1.tiles.getD
          ((testBlockset1.blocks.getD (blockIndexAtCell testMap1 0 0)
              defaultBlock).tileIndexAt 1 2) []).getD 3 []).getD 4 0 :=
  (C3_composite_geometry testMap1 testBlockset1 testTileset1
      (rasterOf testMap1 testBlockset1 testTileset1) 0 0 1 2 3 4 rfl
      (by decide) (by decide) (by decide) (by decide) (by decide)
      (by decide)).2.2

/-- C4: decode and encode are mutually inverse: re-encoding any 8x8 matrix
of pixel values in {0,1,2,3} after packing-and-decoding reproduces the
matrix, and re-encoding a decoded 16-byte tile reproduces the bytes. -/
theorem C4_roundtrip :
    (∀ t : Tile, t.length = 8 → (∀ row ∈ t, row.length = 8) →
        (∀ row ∈ t, ∀ p ∈ row, p < 4) →
        decodeTileBytes (encodeTile t) = t)
    ∧ (∀ bytes : List Nat, bytes.length = 16 → (∀ b ∈ bytes, b < 256) →
        encodeTile (decodeTileBytes bytes) = bytes) := by
  constructor
  · intro t h8 hrows hpix
    obtain ⟨r0, t0, rfl, g0⟩ := cons_of_length_succ t 7 h8
    obtain ⟨r1, t1, rfl, g1⟩ := cons_of_length_succ t0 6 g0
    obtain ⟨r2, t2, rfl, g2⟩ := cons_of_length_succ t1 5 g1
    obtain ⟨r3, t3, rfl, g3⟩ := cons_of_length_succ t2 4 g2
    obtain ⟨r4, t4, rfl, g4⟩ := cons_of_length_succ t3 3 g3
    obtain ⟨r5, t5, rfl, g5⟩ := cons_of_length_succ t4 2 g4
    obtain ⟨r6, t6, rfl, g6⟩ := cons_of_length_succ t5 1 g5
    obtain ⟨r7, t7, rfl, g7⟩ := cons_of_length_succ t6 0 g6
    rw [List.length_eq_zero.mp g7]
    rw [List.length_eq_zero.mp g7] at hrows hpix
    rw [encodeTile_eq, decodeTileBytes_eq]
    simp only [List.cons.injEq, and_true]
    refine ⟨?_, ?_, ?_, ?_, ?_, ?_, ?_, ?_⟩
    · exact decodeRow_encode_of_valid r0 (hrows r0 (by simp)) (hpix r0 (by simp))
    · exact decodeRow_encode_of_valid r1 (hrows r1 (by simp)) (hpix r1 (by simp))
    · exact decodeRow_encode_of_valid r2 (hrows r2 (by simp)) (hpix r2 (by simp))
    · exact decodeRow_encode_of_valid r3 (hrows r3 (by simp)) (hpix r3 (by simp))
    · exact decodeRow_encode_of_valid r4 (hrows r4 (by simp)) (hpix r4 (by simp))
    · exact decodeRow_encode_of_valid r5 (hrows r5 (by simp)) (hpix r5 (by simp))
    · exact decodeRow_encode_of_valid r6 (hrows r6 (by simp)) (hpix r6 (by simp))
    · exact decodeRow_encode_of_valid r7 (hrows r7 (by simp)) (hpix r7 (by simp))
  · intro bytes h16 h256
    obtain ⟨b0, s0, rfl, g0⟩ := cons_of_length_succ bytes 15 h16
    obtain ⟨b1, s1, rfl, g1⟩ := cons_of_length_succ s0 14 g0
    obtain ⟨b2, s2, rfl, g2⟩ := cons_of_length_succ s1 13 g1
    obtain ⟨b3, s3, rfl, g3⟩ := cons_of_length_succ s2 12 g2
    obtain ⟨b4, s4, rfl, g4⟩ := cons_of_length_succ s3 11 g3
    obtain ⟨b5, s5, rfl, g5⟩ := cons_of_length_succ s4 10 g4
    obtain ⟨b6, s6, rfl, g6⟩ := cons_of_length_succ s5 9 g5
    obtain ⟨b7, s7, rfl, g7⟩ := cons_of_length_succ s6 8 g6
    obtain ⟨b8, s8, rfl, g8⟩ := cons_of_length_succ s7 7 g7
    obtain ⟨b9, s9, rfl, g9⟩ := cons_of_length_succ s8 6 g8
    obtain ⟨b10, s10, rfl, g10⟩ := cons_of_length_succ s9 5 g9
    obtain ⟨b11, s11, rfl, g11⟩ := cons_of_length_succ s10 4 g10
    obtain ⟨b12, s12, rfl, g12⟩ := cons_of_length_succ s11 3 g11
    obtain ⟨b13, s13, rfl, g13⟩ := cons_of_length_succ s12 2 g12
    obtain ⟨b14, s14, rfl, g14⟩ := cons_of_length_succ s13 1 g13
    obtain ⟨b15, s15, rfl, g15⟩ := cons_of_length_succ s14 0 g14
    rw [List.length_eq_zero.mp g15]
    rw [List.length_eq_zero.mp g15] at h256
    rw [decodeTileBytes_eq, encodeTile_eq]
    simp only [List.cons.injEq, and_true]
    refine ⟨?_, ?_, ?_, ?_, ?_, ?_, ?_, ?_, ?_, ?_, ?_, ?_, ?_, ?_, ?_, ?_⟩
    · exact encodeRowHigh_decodeRow b0 b1 (h256 b0 (by simp))
    · exact encodeRowLow_decodeRow b0 b1 (h256 b1 (by simp))
    · exact encodeRowHigh_decodeRow b2 b3 (h256 b2 (by simp))
    · exact encodeRowLow_decodeRow b2 b3 (h256 b3 (by simp))
    · exact encodeRowHigh_decodeRow b4 b5 (h256 b4 (by simp))
    · exact encodeRowLow_decodeRow b4 b5 (h256 b5 (by simp))
    · exact encodeRowHigh_decodeRow b6 b7 (h256 b6 (by simp))
    · exact encodeRowLow_decodeRow b6 b7 (h256 b7 (by simp))
    · exact encodeRowHigh_decodeRow b8 b9 (h256 b8 (by simp))
    · exact encodeRowLow_decodeRow b8 b9 (h256 b9 (by simp))
    · exact encodeRowHigh_decodeRow b10 b11 (h256 b10 (by simp))
    · exact encodeRowLow_decodeRow b10 b11 (h256 b11 (by simp))
    · exact encodeRowHigh_decodeRow b12 b13 (h256 b12 (by simp))
    · exact encodeRowLow_decodeRow b12 b13 (h256 b13 (by simp))
    · exact encodeRowHigh_decodeRow b14 b15 (h256 b14 (by simp))
    · exact encodeRowLow_decodeRow b14 b15 (h256 b15 (by simp))

/-- Witness for C4 at a concrete all-black tile and a concrete 16-byte
buffer. -/
theorem C4_witness :
    decodeTileBytes (encodeTile testTile) = testTile ∧
    encodeTile (decodeTileBytes
        [1, 2, 3, 4, 5, 6, 7, 8, 9, 10, 11, 12, 13, 14, 15, 16]) =
      [1, 2, 3, 4, 5, 6, 7, 8, 9, 10, 11, 12, 13, 14, 15, 16] :=
  ⟨C4_roundtrip.1 testTile (by decide) (by decide) (by decide),
   C4_roundtrip.2 [1, 2, 3, 4, 5, 6, 7, 8, 9, 10, 11, 12, 13, 14, 15, 16]
     (by decide) (by decide)⟩

/-- C5: BitplaneTileDecoder fails with MalformedAsset exactly when the input
length is not a multiple of 16; on length 16k it yields exactly k tiles with
every pixel in {0,1,2,3}.  MetatileDecoder fails likewise and otherwise
yields one block per 16-byte group. -/
theorem C5_decoder_errors :
    (∀ bytes : List Nat,
        bitplaneTileDecoder bytes = .error .MalformedAsset ↔
          bytes.length % 16 ≠ 0)
    ∧ (∀ (bytes : List Nat) (k : Nat), bytes.length = 16 * k →
        ∃ ts, bitplaneTileDecoder bytes = .ok ts ∧ ts.length = k ∧
          ∀ t ∈ ts, ∀ row ∈ t, ∀ p ∈ row, p < 4)
    ∧ (∀ bytes : List Nat,
        metatileDecoder bytes = .error .MalformedAsset ↔
          bytes.length % 16 ≠ 0)
    ∧ (∀ (bytes : List Nat) (k : Nat), bytes.length = 16 * k →
        ∃ blks, metatileDecoder bytes = .ok blks ∧ blks.length = k) := by
  refine ⟨?_, ?_, ?_, ?_⟩
  · intro bytes
    unfold bitplaneTileDecoder
    by_cases h : bytes.length % 16 = 0
    · rw [if_pos h]; simp [h]
    · rw [if_neg h]; simp [h]
  · intro bytes k hk
    have hmod : bytes.length % 16 = 0 := by rw [hk]; omega
    refine ⟨(List.range (bytes.length / 16)).map (tileAt bytes), ?_, ?_, ?_⟩
    · unfold bitplaneTileDecoder
      rw [if_pos hmod]
    · simp only [List.length_map, List.length_range, hk]
      omega
    · intro t ht row hrow p hp
      simp only [List.mem_map, List.mem_range] at ht
      obtain ⟨i, _, rfl⟩ := ht
      unfold tileAt at hrow
      simp only [List.mem_map, List.mem_range] at hrow
      obtain ⟨r, _, rfl⟩ := hrow
      unfold decodeRow at hp
      simp only [List.mem_map, List.mem_range] at hp
      obtain ⟨c, _, rfl⟩ := hp
      have h1 : tileBit (bytes.getD (16 * i + 2 * r) 0) c < 2 := by
        unfold tileBit; exact Nat.mod_lt _ (by norm_num)
      have h2 : tileBit (bytes.getD (16 * i + 2 * r + 1) 0) c < 2 := by
        unfold tileBit; exact Nat.mod_lt _ (by norm_num)
      omega
  · intro bytes
    unfold metatileDecoder
    by_cases h : bytes.length % 16 = 0
    · rw [if_pos h]; simp [h]
    · rw [if_neg h]; simp [h]
  · intro bytes k hk
    have hmod : bytes.length % 16 = 0 := by rw [hk]; omega
    refine ⟨(List.range (bytes.length / 16)).map (blockAt bytes), ?_, ?_⟩
    · unfold metatileDecoder
      rw [if_pos hmod]
    · simp only [List.length_map, List.length_range, hk]
      omega

/-- Witness for C5 at a 5-byte malformed buffer and a 32-byte well-formed
buffer for both decoders. -/
theorem C5_witness :
    (bitplaneTileDecoder (List.replicate 5 0) = .error .MalformedAsset ↔
      (List.replicate 5 0 : List Nat).length % 16 ≠ 0) ∧
    (∃ ts, bitplaneTileDecoder (List.replicate 32 7) = .ok ts ∧
      ts.length = 2 ∧ ∀ t ∈ ts, ∀ row ∈ t, ∀ p ∈ row, p < 4) ∧
    (∃ blks, metatileDecoder (List.replicate 32 7) = .ok blks ∧
      blks.length = 2) :=
  ⟨C5_decoder_errors.1 (List.replicate 5 0),
   C5_decoder_errors.2.1 (List.replicate 32 7) 2 (by decide),
   C5_decoder_errors.2.2.2 (List.replicate 32 7) 2 (by decide)⟩

theorem mem_allCells (m : GameMap) (bx bY : Nat) (hbx : bx < m.width)
    (hbY : bY < m.height) : (bx, bY) ∈ allCells m := by
  unfold allCells
  simp only [List.mem_flatMap, List.mem_map, List.mem_range]
  exact ⟨bY, hbY, bx, hbx, rfl⟩

/-- C6: when some cell of a map's grid holds a block index with no entry in
the assigned blockset, composition fails with MissingBlock naming the map
and an offending cell, and the pipeline writes no partial records for that
map: the store is unchanged. -/
theorem C6_missing_block (m : GameMap) (bs : Blockset) (ts : Tileset)
    (store : List MapRecord) (bx bY : Nat)
    (hbx : bx < m.width) (hbY : bY < m.height)
    (hbad : bs.blocks.length ≤ blockIndexAtCell m bx bY) :
    ∃ bx' bY', bx' < m.width ∧ bY' < m.height ∧
      bs.blocks.length ≤ blockIndexAtCell m bx' bY' ∧
      composite m bs ts = .error (.MissingBlock m.name bx' bY') ∧
      (processMap m bs ts store).1 = store := by
  have hmem : (bx, bY) ∈ allCells m := mem_allCells m bx bY hbx hbY
  have hsome : (findBadBlock m bs).isSome := by
    unfold findBadBlock
    rw [List.find?_isSome]
    exact ⟨(bx, bY), hmem, by simpa using hbad⟩
  obtain ⟨p, hp⟩ := Option.isSome_iff_exists.mp hsome
  have hprop := List.find?_some hp
  have hmem' := List.mem_of_find?_eq_some hp
  obtain ⟨bx', bY'⟩ := p
  have hrange : bx' < m.width ∧ bY' < m.height := by
    unfold allCells at hmem'
    simp only [List.mem_flatMap, List.mem_map, List.mem_range] at hmem'
    obtain ⟨r, hr, c, hc, heq⟩ := hmem'
    obtain ⟨rfl, rfl⟩ := Prod.mk.injEq .. ▸ heq
    exact ⟨hc, hr⟩
  have hcomp : composite m bs ts = .error (.MissingBlock m.name bx' bY') := by
    unfold composite
    rw [hp]
  refine ⟨bx', bY', hrange.1, hrange.2, by simpa using hprop, hcomp, ?_⟩
  unfold processMap
  rw [hcomp]

/-- Witness for C6 at a concrete 2x1 map whose cell (1,0) holds block index
5 against a one-block blockset. -/
theorem C6_witness :
    ∃ bx' bY', bx' < testMapBad.width ∧ bY' < testMapBad.height ∧
      testBlockset1.blocks.length ≤ blockIndexAtCell testMapBad bx' bY' ∧
      composite testMapBad testBlockset1 testTileset1 =
        .error (.MissingBlock testMapBad.name bx' bY') ∧
      (processMap testMapBad testBlockset1 testTileset1 []).1 = [] :=
  C6_missing_block testMapBad testBlockset1 testTileset1 [] 1 0
    (by decide) (by decide) (by decide)

/-- C7: composite is deterministic and idempotent: runs on identical inputs
produce identical rasters, and a render request leaves every other state
unchanged. -/
theorem C7_composite_pure {σ : Type} (m m' : GameMap) (bs bs' : Blockset)
    (ts ts' : Tileset) (st : σ)
    (hm : m = m') (hbs : bs = bs') (hts : ts = ts') :
    composite m bs ts = composite m' bs' ts' ∧
    (renderRequest m bs ts st).1 = (renderRequest m' bs' ts' st).1 ∧
    (renderRequest m bs ts st).2 = st := by
  subst hm; subst hbs; subst hts
  exact ⟨rfl, rfl, rfl⟩

/-- Witness for C7 at concrete inputs (two textually identical runs). -/
theorem C7_witness :
    composite testMap1 testBlockset1 testTileset1 =
      composite testMap1 testBlockset1 testTileset1 ∧
    (renderRequest testMap1 testBlockset1 testTileset1 (0 : Nat)).1 =
      (renderRequest testMap1 testBlockset1 testTileset1 (0 : Nat)).1 ∧
    (renderRequest testMap1 testBlockset1 testTileset1 (0 : Nat)).2 = 0 :=
  C7_composite_pure testMap1 testMap1 testBlockset1 testBlockset1
    testTileset1 testTileset1 0 rfl rfl rfl

theorem lookupCache_cons {α : Type} (k : String) (v : α)
    (c : List (String × α)) (n : String) :
    lookupCache ((k, v) :: c) n = if k == n then some v else lookupCache c n := by
  unfold lookupCache
  cases hk : k == n
  · rw [List.find?_cons_of_neg _ (by simpa using hk)]
    simp
  · rw [List.find?_cons_of_pos _ (by simpa using hk)]
    simp

theorem resolveTileset_state (tsR : String → List Nat) (st : PipelineState)
    (name : String) :
    ((lookupCache st.tsCache name).isSome ∧
      (resolveTileset tsR st name).2 = st) ∨
    (lookupCache st.tsCache name = none ∧
      (resolveTileset tsR st name).2 =
        { st with
            tsCache := (name, bitplaneTileDecoder (tsR name)) :: st.tsCache,
            tsDecodes := st.tsDecodes ++ [name] }) := by
  unfold resolveTileset
  rcases hl : lookupCache st.tsCache name with _ | r
  · right; exact ⟨rfl, rfl⟩
  · left; exact ⟨by simp, rfl⟩

theorem resolveBlockset_state (bsR : String → List Nat) (st : PipelineState)
    (name : String) :
    ((lookupCache st.bsCache name).isSome ∧
      (resolveBlockset bsR st name).2 = st) ∨
    (lookupCache st.bsCache name = none ∧
      (resolveBlockset bsR st name).2 =
        { st with
            bsCache := (name, metatileDecoder (bsR name)) :: st.bsCache,
            bsDecodes := st.bsDecodes ++ [name] }) := by
  unfold resolveBlockset
  rcases hl : lookupCache st.bsCache name with _ | r
  · right; exact ⟨rfl, rfl⟩
  · left; exact ⟨by simp, rfl⟩

theorem cacheInv_extend {α : Type} (cache : List (String × α))
    (events : List String) (name : String) (v : α)
    (h1 : ∀ n, (lookupCache cache n).isSome ↔ n ∈ events)
    (h2 : events.Nodup) (hn : lookupCache cache name = none) :
    (∀ n, (lookupCache ((name, v) :: cache) n).isSome ↔ n ∈ events ++ [name]) ∧
    (events ++ [name]).Nodup ∧
    (∀ n, n ∈ events ++ [name] ↔ (n ∈ events ∨ n = name)) := by
  have hnm : name ∉ events := by
    rw [← h1 name, hn]
    simp
  refine ⟨?_, ?_, ?_⟩
  · intro n
    rw [lookupCache_cons]
    by_cases hk : name = n
    · subst hk
      simp
    · have hbk : (name == n) = false := by
        simp [hk]
      rw [hbk]
      simp only [if_false, Bool.false_eq_true, List.mem_append,
        List.mem_singleton, h1 n]
      have : ¬ n = name := fun h => hk h.symm
      tauto
  · simp [List.nodup_append, h2, hnm]
  · intro n
    simp [List.mem_append]

theorem runResolves_spec (tsR bsR : String → List Nat)
    (descs : List (String × String)) :
    ∀ st : PipelineState,
    (∀ n, (lookupCache st.tsCache n).isSome ↔ n ∈ st.tsDecodes) →
    st.tsDecodes.Nodup →
    (∀ n, (lookupCache st.bsCache n).isSome ↔ n ∈ st.bsDecodes) →
    st.bsDecodes.Nodup →
    (∀ n, (lookupCache (runResolves tsR bsR st descs).tsCache n).isSome ↔
        n ∈ (runResolves tsR bsR st descs).tsDecodes) ∧
    (runResolves tsR bsR st descs).tsDecodes.Nodup ∧
    (∀ n, n ∈ (runResolves tsR bsR st descs).tsDecodes ↔
        (n ∈ st.tsDecodes ∨ n ∈ descs.map Prod.fst)) ∧
    (∀ n, (lookupCache (runResolves tsR bsR st descs).bsCache n).isSome ↔
        n ∈ (runResolves tsR bsR st descs).bsDecodes) ∧
    (runResolves tsR bsR st descs).bsDecodes.Nodup ∧
    (∀ n, n ∈ (runResolves tsR bsR st descs).bsDecodes ↔
        (n ∈ st.bsDecodes ∨ n ∈ descs.map Prod.snd)) := by
  induction descs with
  | nil =>
    intro st h1 h2 h3 h4
    simp only [runResolves, List.map_nil, List.not_mem_nil, or_false]
    exact ⟨h1, h2, fun n => trivial, h3, h4, fun n => trivial⟩
  | cons d rest ih =>
    intro st h1 h2 h3 h4
    have hstep : runResolves tsR bsR st (d :: rest) =
        runResolves tsR bsR
          ((resolveBlockset bsR ((resolveTileset tsR st d.1).2) d.2).2)
          rest := rfl
    rw [hstep]
    set st1 := (resolveTileset tsR st d.1).2 with hst1def
    have hts : (∀ n, (lookupCache st1.tsCache n).isSome ↔ n ∈ st1.tsDecodes) ∧
        st1.tsDecodes.Nodup ∧
        (∀ n, n ∈ st1.tsDecodes ↔ (n ∈ st.tsDecodes ∨ n = d.1)) ∧
        st1.bsCache = st.bsCache ∧ st1.bsDecodes = st.bsDecodes := by
      rcases resolveTileset_state tsR st d.1 with ⟨hs, heq⟩ | ⟨hn, heq⟩
      · have heq' : st1 = st := hst1def.trans heq
        rw [heq']
        have hname : d.1 ∈ st.tsDecodes := (h1 d.1).mp hs
        refine ⟨h1, h2, ?_, rfl, rfl⟩
        intro n
        constructor
        · exact Or.inl
        · rintro (h | rfl)
          · exact h
          · exact hname
      · have heq' : st1 = _ := hst1def.trans heq
        rw [heq']
        obtain ⟨a, b, c⟩ :=
          cacheInv_extend st.tsCache st.tsDecodes d.1
            (bitplaneTileDecoder (tsR d.1)) h1 h2 hn
        exact ⟨a, b, c, rfl, rfl⟩
    obtain ⟨i1, i2, i3, e1, e2⟩ := hts
    set st2 := (resolveBlockset bsR st1 d.2).2 with hst2def
    have h3' : ∀ n, (lookupCache st1.bsCache n).isSome ↔ n ∈ st1.bsDecodes := by
      intro n
      rw [e1, e2]
      exact h3 n
    have h4' : st1.bsDecodes.Nodup := by
      rw [e2]
      exact h4
    have hbs : (∀ n, (lookupCache st2.bsCache n).isSome ↔ n ∈ st2.bsDecodes) ∧
        st2.bsDecodes.Nodup ∧
        (∀ n, n ∈ st2.bsDecodes ↔ (n ∈ st1.bsDecodes ∨ n = d.2)) ∧
        st2.tsCache = st1.tsCache ∧ st2.tsDecodes = st1.tsDecodes := by
      rcases resolveBlockset_state bsR st1 d.2 with ⟨hs, heq⟩ | ⟨hn, heq⟩
      · have heq' : st2 = st1 := hst2def.trans heq
        rw [heq']
        have hname : d.2 ∈ st1.bsDecodes := (h3' d.2).mp hs
        refine ⟨h3', h4', ?_, rfl, rfl⟩
        intro n
        constructor
        · exact Or.inl
        · rintro (h | rfl)
          · exact h
          · exact hname
      · have heq' : st2 = _ := hst2def.trans heq
        rw [heq']
        obtain ⟨a, b, c⟩ :=
          cacheInv_extend st1.bsCache st1.bsDecodes d.2
            (metatileDecoder (bsR d.2)) h3' h4' hn
        exact ⟨a, b, c, rfl, rfl⟩
    obtain ⟨j1, j2, j3, f1, f2⟩ := hbs
    have i1' : ∀ n, (lookupCache st2.tsCache n).isSome ↔ n ∈ st2.tsDecodes := by
      intro n
      rw [f1, f2]
      exact i1 n
    have i2' : st2.tsDecodes.Nodup := by
      rw [f2]
      exact i2
    obtain ⟨k1, k2, k3, k4, k5, k6⟩ := ih st2 i1' i2' j1 j2
    refine ⟨k1, k2, ?_, k4, k5, ?_⟩
    · intro n
      rw [k3 n, f2, i3 n]
      simp only [List.map_cons, List.mem_cons]
      tauto
    · intro n
      rw [k6 n, j3 n, e2]
      simp only [List.map_cons, List.mem_cons]
      tauto

/-- C8: over a whole pipeline run, each unique tileset (and blockset) name is
decoded at most once — the decode-event list has no duplicates — and a name
is decoded exactly when some map descriptor references it: the first
resolution decodes and caches, later resolutions reuse the cache. -/
theorem C8_decode_once (tsR bsR : String → List Nat)
    (descs : List (String × String)) :
    (runPipelineResolves tsR bsR descs).tsDecodes.Nodup ∧
    (∀ n, n ∈ (runPipelineResolves tsR bsR descs).tsDecodes ↔
      n ∈ descs.map Prod.fst) ∧
    (runPipelineResolves tsR bsR descs).bsDecodes.Nodup ∧
    (∀ n, n ∈ (runPipelineResolves tsR bsR descs).bsDecodes ↔
      n ∈ descs.map Prod.snd) := by
  have h := runResolves_spec tsR bsR descs emptyPipelineState
    (by intro n; simp [emptyPipelineState, lookupCache])
    (by simp [emptyPipelineState])
    (by intro n; simp [emptyPipelineState, lookupCache])
    (by simp [emptyPipelineState])
  obtain ⟨_, k2, k3, _, k5, k6⟩ := h
  refine ⟨k2, ?_, k5, ?_⟩
  · intro n
    rw [runPipelineResolves, k3 n]
    simp [emptyPipelineState]
  · intro n
    rw [runPipelineResolves, k6 n]
    simp [emptyPipelineState]

/-- C9: a tile-image request whose id does not parse as a number yields HTTP
400 and serves no file; an id parsing as N with no row in the tile_images
table is served tile_{N-1}.png (ids 1-indexed, files 0-indexed), falling
back to tile_0.png and then to HTTP 404 when absent. -/
theorem C9_tile_image_endpoint :
    (∀ (dbResult : Except String (Option String)) (fexists : String → Bool),
        tileImageHandler none dbResult fexists = .badRequest "Invalid tile ID" ∧
        ∀ p, tileImageHandler none dbResult fexists ≠ .fileResponse p)
    ∧ (∀ (n : Int) (fexists : String → Bool),
        tileImageHandler (some n) (.ok none) fexists =
          if fexists (tileImageName (n - 1)) then
            .fileResponse (tileImageName (n - 1))
          else if fexists (tileImageName 0) then
            .fileResponse (tileImageName 0)
          else .notFound "Tile image not found") := by
  constructor
  · intro dbResult fexists
    exact ⟨rfl, fun p => by simp [tileImageHandler]⟩
  · intro n fexists
    rfl

/-- C10: runCommand returns false on a failed command instead of throwing,
so the export.js render loop attempts every map in the list, and the final
reported count is exactly the number of successful render commands, never
exceeding the number of maps. -/
theorem C10_render_loop_resilient (maps : List String)
    (exec : String → Except String String) :
    (∀ msg, runCommand (.error msg) = false) ∧
    (renderLoop maps exec).1 = maps ∧
    (renderLoop maps exec).2 =
      (maps.filter fun m => runCommand (exec (renderCmdFor m))).length ∧
    (renderLoop maps exec).2 ≤ maps.length := by
  have aux : ∀ (l : List String) (acc : List String) (cnt : Nat),
      l.foldl (fun acc m =>
          (acc.1 ++ [m],
           if runCommand (exec (renderCmdFor m)) then acc.2 + 1 else acc.2))
        (acc, cnt) =
        (acc ++ l,
         cnt + (l.filter fun m => runCommand (exec (renderCmdFor m))).length) := by
    intro l
    induction l with
    | nil =>
      intro acc cnt
      simp
    | cons m rest ihl =>
      intro acc cnt
      rw [List.foldl_cons, ihl]
      cases hc : runCommand (exec (renderCmdFor m)) <;>
        simp [List.filter_cons, hc] <;> omega
  have hloop := aux maps [] 0
  refine ⟨fun msg => rfl, ?_, ?_, ?_⟩
  · rw [renderLoop, hloop]
    simp
  · rw [renderLoop, hloop]
    simp
  · rw [renderLoop, hloop]
    simpa using List.length_filter_le _ maps

/-- Witness for C9 at the unparseable id and at id 5 with no database row,
where only tile_4.png exists. -/
theorem C9_witness :
    tileImageHandler none (.ok none) (fun _ => false) =
      .badRequest "Invalid tile ID" ∧
    tileImageHandler (some 5) (.ok none) (fun s => s == tileImageName 4) =
      .fileResponse (tileImageName 4) := by
  constructor
  · exact (C9_tile_image_endpoint.1 (.ok none) (fun _ => false)).1
  · rw [C9_tile_image_endpoint.2 5 (fun s => s == tileImageName 4)]
    decide

/-- Witness for C10: two maps whose render commands both fail are still both
attempted and the reported count is 0. -/
theorem C10_witness :
    (renderLoop ["PALLET_TOWN", "BIKE_SHOP"] fun _ => .error "boom").1 =
      ["PALLET_TOWN", "BIKE_SHOP"] ∧
    (renderLoop ["PALLET_TOWN", "BIKE_SHOP"] fun _ => .error "boom").2 = 0 := by
  have h := C10_render_loop_resilient ["PALLET_TOWN", "BIKE_SHOP"]
    fun _ => .error "boom"
  exact ⟨h.2.1, by rw [h.2.2.1]; rfl⟩
